import Mathlib

/-!
Verification of the protoc-gen-py-mcp code generator
(`src/protoc_gen_py_mcp/plugin.py`) against its natural-language
specification.  The descriptor data model and every generator routine the
claims touch are embedded as executable Lean definitions, translated
directly from the source.
-/

namespace PyMcp

/-- Python dict lookup over an insertion-ordered association list:
the *last* binding for a key wins (later `d[k] = v` overwrite earlier). -/
def dictFind {α : Type} (l : List (String × α)) (k : String) : Option α :=
  List.foldl (fun acc p => if p.1 = k then some p.2 else acc) none l

/-- `dict.get(key, default)`. -/
def dictGetD {α : Type} (l : List (String × α)) (k : String) (d : α) : α :=
  (dictFind l k).getD d

/-- Lookup keyed by an integer path (used for the per-file comment maps). -/
def pathFind {α : Type} (l : List (List Nat × α)) (k : List Nat) : Option α :=
  List.foldl (fun acc p => if p.1 = k then some p.2 else acc) none l

/-! ## Descriptor data model (google.protobuf.descriptor_pb2) -/

/-- `FieldDescriptorProto.Label.LABEL_REPEATED`. -/
def LABEL_REPEATED : Nat := 3

def TYPE_DOUBLE : Nat := 1
def TYPE_FLOAT : Nat := 2
def TYPE_INT64 : Nat := 3
def TYPE_UINT64 : Nat := 4
def TYPE_INT32 : Nat := 5
def TYPE_FIXED64 : Nat := 6
def TYPE_FIXED32 : Nat := 7
def TYPE_BOOL : Nat := 8
def TYPE_STRING : Nat := 9
def TYPE_GROUP : Nat := 10
def TYPE_MESSAGE : Nat := 11
def TYPE_BYTES : Nat := 12
def TYPE_UINT32 : Nat := 13
def TYPE_ENUM : Nat := 14
def TYPE_SFIXED32 : Nat := 15
def TYPE_SFIXED64 : Nat := 16
def TYPE_SINT32 : Nat := 17
def TYPE_SINT64 : Nat := 18

structure FieldDescriptorProto where
  name : String := ""
  number : Nat := 0
  label : Nat := 1
  ftype : Nat := 0
  type_name : String := ""
  /-- `none` models `HasField("oneof_index") == False`; reading the proto
  field when unset yields the default `0`. -/
  oneof_index : Option Nat := none
  proto3_optional : Bool := false
  deriving Repr, DecidableEq

/-- Reading `field.oneof_index` in Python returns 0 when the field is unset. -/
def FieldDescriptorProto.oneofIndexVal (f : FieldDescriptorProto) : Nat :=
  f.oneof_index.getD 0

structure OneofDescriptorProto where
  name : String := ""
  deriving Repr, DecidableEq, Inhabited

structure MessageOptions where
  map_entry : Bool := false
  deriving Repr, DecidableEq

structure EnumDescriptorProto where
  name : String := ""
  deriving Repr, DecidableEq

structure DescriptorProto where
  name : String := ""
  field : List FieldDescriptorProto := []
  nested_type : List DescriptorProto := []
  enum_type : List EnumDescriptorProto := []
  oneof_decl : List OneofDescriptorProto := []
  options : MessageOptions := {}
  deriving Repr

instance : Inhabited DescriptorProto := ⟨⟨"", [], [], [], [], {}⟩⟩

structure MethodDescriptorProto where
  name : String := ""
  input_type : String := ""
  output_type : String := ""
  client_streaming : Bool := false
  server_streaming : Bool := false
  deriving Repr, DecidableEq

structure ServiceDescriptorProto where
  name : String := ""
  method : List MethodDescriptorProto := []
  deriving Repr, DecidableEq

/-- One entry of `source_code_info.location`. -/
structure SourceLocation where
  path : List Nat := []
  leading_comments : String := ""
  trailing_comments : String := ""
  deriving Repr, DecidableEq

structure FileDescriptorProto where
  name : String := ""
  package : String := ""
  message_type : List DescriptorProto := []
  enum_type : List EnumDescriptorProto := []
  service : List ServiceDescriptorProto := []
  source_code_info : List SourceLocation := []
  deriving Repr

/-- The type index built by `_build_type_index` / `_index_messages`:
an insertion-ordered list of (fully qualified name, descriptor). -/
abbrev TypeIndex := List (String × DescriptorProto)

/-- Plugin parameters dictionary (`self.parameters`). -/
abbrev Params := List (String × String)

/-- Per-file comment maps (`self.source_comments`). -/
abbrev Comments := List (String × List (List Nat × String))

/-! ## Type mapper (`_get_scalar_python_type`, `_get_well_known_type`,
`_is_map_field`, `_get_map_types`, `_get_python_type`) -/

/-- `_get_well_known_type`: table of well-known protobuf message types. -/
def getWellKnownType (type_name : String) : Option String :=
  if type_name = ".google.protobuf.Timestamp" then some "str"
  else if type_name = ".google.protobuf.Duration" then some "str"
  else if type_name = ".google.protobuf.Any" then some "dict"
  else if type_name = ".google.protobuf.Value" then some "Any"
  else if type_name = ".google.protobuf.Struct" then some "dict"
  else if type_name = ".google.protobuf.ListValue" then some "List[Any]"
  else if type_name = ".google.protobuf.Empty" then some "None"
  else if type_name = ".google.protobuf.StringValue" then some "str"
  else if type_name = ".google.protobuf.Int32Value" then some "int"
  else if type_name = ".google.protobuf.Int64Value" then some "int"
  else if type_name = ".google.protobuf.UInt32Value" then some "int"
  else if type_name = ".google.protobuf.UInt64Value" then some "int"
  else if type_name = ".google.protobuf.FloatValue" then some "float"
  else if type_name = ".google.protobuf.DoubleValue" then some "float"
  else if type_name = ".google.protobuf.BoolValue" then some "bool"
  else if type_name = ".google.protobuf.BytesValue" then some "bytes"
  else none

/-- `_get_scalar_python_type`: scalar mapping of a single field. -/
def getScalarPythonType (f : FieldDescriptorProto) : String :=
  if f.ftype = TYPE_DOUBLE then "float"
  else if f.ftype = TYPE_FLOAT then "float"
  else if f.ftype = TYPE_INT64 then "int"
  else if f.ftype = TYPE_UINT64 then "int"
  else if f.ftype = TYPE_INT32 then "int"
  else if f.ftype = TYPE_FIXED64 then "int"
  else if f.ftype = TYPE_FIXED32 then "int"
  else if f.ftype = TYPE_BOOL then "bool"
  else if f.ftype = TYPE_STRING then "str"
  else if f.ftype = TYPE_BYTES then "bytes"
  else if f.ftype = TYPE_UINT32 then "int"
  else if f.ftype = TYPE_SFIXED32 then "int"
  else if f.ftype = TYPE_SFIXED64 then "int"
  else if f.ftype = TYPE_SINT32 then "int"
  else if f.ftype = TYPE_SINT64 then "int"
  else if f.ftype = TYPE_ENUM then "int"
  else if f.ftype = TYPE_MESSAGE then
    (if f.type_name ≠ "" then
      match getWellKnownType f.type_name with
      | some wkt => wkt
      | none => "dict"
    else "dict")
  else "Any"

/-- `_is_map_field`: repeated message field whose referenced message has
`map_entry` set. -/
def isMapField (index : TypeIndex) (f : FieldDescriptorProto) : Bool :=
  if f.label ≠ LABEL_REPEATED ∨ f.ftype ≠ TYPE_MESSAGE then false
  else
    match dictFind index f.type_name with
    | some message_type => message_type.options.map_entry
    | none => false

/-- The `for entry_field in map_entry.field` loop of `_get_map_types`:
the last field with the given number wins. -/
def findFieldWithNumber (fields : List FieldDescriptorProto) (n : Nat) :
    Option FieldDescriptorProto :=
  List.foldl (fun acc fld => if fld.number = n then some fld else acc) none fields

/-- `_get_map_types`: key/value Python types of a map field. -/
def getMapTypes (index : TypeIndex) (f : FieldDescriptorProto) : String × String :=
  if ¬ isMapField index f then ("Any", "Any")
  else
    match dictFind index f.type_name with
    | none => ("Any", "Any")
    | some map_entry =>
      match findFieldWithNumber map_entry.field 1, findFieldWithNumber map_entry.field 2 with
      | some key_field, some value_field =>
          (getScalarPythonType key_field, getScalarPythonType value_field)
      | _, _ => ("Any", "Any")

/-- `_get_python_type`: full type-hint mapping of a field. -/
def getPythonType (index : TypeIndex) (f : FieldDescriptorProto) : String :=
  if isMapField index f then
    let mt := getMapTypes index f
    "Dict[" ++ mt.1 ++ ", " ++ mt.2 ++ "]"
  else if f.label = LABEL_REPEATED then
    "List[" ++ getScalarPythonType f ++ "]"
  else if f.proto3_optional then
    "Optional[" ++ getScalarPythonType f ++ "]"
  else
    getScalarPythonType f

/-! ## String helpers mirroring the Python string operations used -/

/-- The scan of Python `str.replace(pat, rep)`, structurally recursive on a
fuel bound (one unit per character examined, so `s.length` fuel always
suffices): scan left to right, replace every non-overlapping occurrence.
(The source only calls it with non-empty patterns.) -/
def pyReplaceFuel : Nat → List Char → List Char → List Char → List Char
  | 0, _, _, _ => []
  | fuel + 1, s, pat, rep =>
    match s with
    | [] => []
    | c :: rest =>
      if pat ≠ [] ∧ pat.isPrefixOf (c :: rest) then
        rep ++ pyReplaceFuel fuel ((c :: rest).drop pat.length) pat rep
      else
        c :: pyReplaceFuel fuel rest pat rep

/-- Python `str.replace(pat, rep)` on character lists. -/
def pyReplace (s pat rep : List Char) : List Char :=
  pyReplaceFuel s.length s pat rep

/-- Python `s.replace(pat, rep)` on `String`. -/
def strReplace (s pat rep : String) : String := ⟨pyReplace s.data pat.data rep.data⟩

/-- Python `s.startswith(p)`. -/
def pyStartsWith (s p : String) : Bool := p.data.isPrefixOf s.data

/-- Python `sub in s` substring test. -/
def containsSub (s pat : List Char) : Bool :=
  if pat.isPrefixOf s then true
  else
    match s with
    | [] => false
    | _ :: rest => containsSub rest pat

/-- Python `s.split(".")[-1]`. -/
def lastDotComponent (s : String) : String :=
  ((s.splitOn ".").getLast?).getD ""

/-- Python truthiness `True`/`False` as printed by an f-string. -/
def pyBool (b : Bool) : String := if b then "True" else "False"

/-! ## Descriptor indexer (`_index_messages`) -/

/- `_index_messages`: recursively index message types (including nested
messages) into the insertion-ordered `message_types` table.  The source also
feeds nested enums to `_index_enums` (a separate table never consulted by
the routines under verification). -/
mutual

/-- One iteration of the `_index_messages` loop for a single message. -/
def indexMessageOne (package parent : String) (m : DescriptorProto) : TypeIndex :=
  let full_name :=
    if parent ≠ "" then "." ++ package ++ "." ++ parent ++ "." ++ m.name
    else if package ≠ "" then "." ++ package ++ "." ++ m.name
    else "." ++ m.name
  let nested_parent := if parent ≠ "" then parent ++ "." ++ m.name else m.name
  (full_name, m) ::
    (if !m.nested_type.isEmpty then indexMessagesList package nested_parent m.nested_type
     else [])
termination_by sizeOf m
decreasing_by cases m; simp [DescriptorProto.mk.sizeOf_spec]; omega

/-- `_index_messages` over a list of sibling messages. -/
def indexMessagesList (package parent : String) :
    List DescriptorProto → TypeIndex
  | [] => []
  | m :: rest =>
    indexMessageOne package parent m ++ indexMessagesList package parent rest
termination_by l => sizeOf l
decreasing_by all_goals (simp; try omega)

end

/-- `_build_type_index` restricted to its `message_types` output: index all
files' messages in file order. -/
def buildTypeIndex (files : List FileDescriptorProto) : TypeIndex :=
  files.flatMap (fun pf => indexMessagesList pf.package "" pf.message_type)

/-! ## Comment extraction (`_extract_comments`, `_get_comment`) -/

/-- Body of the `_extract_comments` loop: one dict entry per location that
has any comment text. -/
def extractCommentsMap (pf : FileDescriptorProto) : List (List Nat × String) :=
  pf.source_code_info.filterMap (fun loc =>
    let parts :=
      (if loc.leading_comments ≠ "" then [loc.leading_comments.trim] else []) ++
      (if loc.trailing_comments ≠ "" then [loc.trailing_comments.trim] else [])
    if parts ≠ [] then some (loc.path, String.intercalate " " parts) else none)

/-- `self.source_comments` after `_build_type_index` has walked all files:
files whose descriptor carries no source info get no entry (the source
returns early before assigning). -/
def buildSourceComments (files : List FileDescriptorProto) : Comments :=
  files.filterMap (fun pf =>
    if pf.source_code_info = [] then none else some (pf.name, extractCommentsMap pf))

/-- `_get_comment`: empty string when the file or path is absent. -/
def getComment (comments : Comments) (fname : String) (path : List Nat) : String :=
  match dictFind comments fname with
  | none => ""
  | some m => (pathFind m path).getD ""

/-! ## Field analyzer (`_analyze_message_fields`) -/

/-- The per-field information dictionary produced by `_analyze_message_fields`. -/
structure FieldInfo where
  name : String
  type : String
  proto_type : Nat
  required : Bool
  repeated : Bool
  optional : Bool
  is_map : Bool
  is_oneof : Bool
  oneof_name : Option String
  type_name : Option String
  deriving Repr, DecidableEq

/-- The synthetic-oneof scan of `_analyze_message_fields`: a oneof group is
marked synthetic when it *contains any* `proto3_optional` member (the member
test reads `field.oneof_index`, which defaults to 0 when unset). -/
def oneofHasProto3Optional (msg : DescriptorProto) (idx : Nat) : Bool :=
  msg.field.any (fun f => f.oneofIndexVal == idx && f.proto3_optional)

/-- The `real_oneofs` set: indices of oneof groups with no `proto3_optional`
member. -/
def realOneofIndices (msg : DescriptorProto) : List Nat :=
  (List.range msg.oneof_decl.length).filter (fun i => ! oneofHasProto3Optional msg i)

/-- One iteration of the field loop of `_analyze_message_fields`. -/
def analyzeOneField (index : TypeIndex) (msg : DescriptorProto)
    (f : FieldDescriptorProto) : FieldInfo :=
  let is_part_of_real_oneof :=
    match f.oneof_index with
    | some i => (realOneofIndices msg).contains i
    | none => false
  let oneofName : Option String :=
    match f.oneof_index with
    | some i =>
      if (realOneofIndices msg).contains i then
        some (((msg.oneof_decl.get? i).getD default).name)
      else none
    | none => none
  let is_optional := f.proto3_optional || is_part_of_real_oneof
  let is_repeated := f.label == LABEL_REPEATED
  let is_map := isMapField index f
  let is_required := !is_optional && !is_repeated && !is_map
  let base_type0 := getPythonType index f
  let base_type :=
    if is_part_of_real_oneof && !(pyStartsWith base_type0 "Optional[") then
      "Optional[" ++ base_type0 ++ "]"
    else base_type0
  { name := f.name
    type := base_type
    proto_type := f.ftype
    required := is_required
    repeated := is_repeated
    optional := is_optional
    is_map := is_map
    is_oneof := is_part_of_real_oneof
    oneof_name := oneofName
    type_name := if f.type_name ≠ "" then some f.type_name else none }

/-- `_analyze_message_fields`: an unresolved message type name yields an
empty field list; otherwise every field is analyzed in declaration order. -/
def analyzeMessageFields (index : TypeIndex) (message_type_name : String) :
    List FieldInfo :=
  match dictFind index message_type_name with
  | none => []
  | some message => message.field.map (analyzeOneField index message)

/-! ## Parameter getters -/

/-- `_get_output_suffix`. -/
def getOutputSuffix (params : Params) : String :=
  dictGetD params "output_suffix" "_pb2_mcp.py"

/-- `_get_tool_name_case`. -/
def getToolNameCase (params : Params) : String :=
  dictGetD params "tool_name_case" "snake"

/-- `_include_comments`. -/
def includeCommentsFlag (params : Params) : Bool :=
  ["true", "1", "yes"].contains (dictGetD params "include_comments" "true").toLower

/-- `_get_stream_mode`. -/
def getStreamMode (params : Params) : String :=
  dictGetD params "stream_mode" "collect"

/-- `_is_async_mode`. -/
def isAsyncMode (params : Params) : Bool :=
  ["true", "1", "yes"].contains (dictGetD params "async" "").toLower

/-- `_get_grpc_target`. -/
def getGrpcTarget (params : Params) : Option String :=
  dictFind params "grpc_target"

/-! ## Name-case conversion (`_camel_to_snake`, `_convert_tool_name`) -/

/-- The loop of `_camel_to_snake`; the flag records whether `i > 0`. -/
def camelToSnakeChars : Bool → List Char → List Char
  | _, [] => []
  | notFirst, c :: rest =>
    (if c.isUpper && notFirst then ['_', c.toLower] else [c.toLower]) ++
      camelToSnakeChars true rest

/-- `_camel_to_snake`. -/
def camelToSnake (name : String) : String := ⟨camelToSnakeChars false name.data⟩

/-- `_convert_tool_name`. -/
def convertToolName (params : Params) (method_name : String) : String :=
  let case_type := getToolNameCase params
  if case_type = "snake" then camelToSnake method_name
  else if case_type = "camel" then
    match method_name.data with
    | [] => ""
    | c :: rest => ⟨c.toLower :: rest⟩
  else if case_type = "pascal" then method_name
  else if case_type = "kebab" then strReplace (camelToSnake method_name) "_" "-"
  else camelToSnake method_name

/-! ## Unary tool generation (`_generate_method_tool`, `_generate_grpc_call`) -/

/-- A required parameter of the emitted signature. -/
def fmtRequiredParam (fi : FieldInfo) : String := fi.name ++ ": " ++ fi.type

/-- An optional parameter of the emitted signature (with its `None` default). -/
def fmtOptionalParam (fi : FieldInfo) : String := fi.name ++ ": " ++ fi.type ++ " = None"

/-- The required/optional accumulation loop of `_generate_method_tool`. -/
def splitParams (fields : List FieldInfo) : List String × List String :=
  fields.foldl
    (fun acc fi =>
      if fi.optional then (acc.1, acc.2 ++ [fmtOptionalParam fi])
      else (acc.1 ++ [fmtRequiredParam fi], acc.2))
    ([], [])

/-- `params = required_params + optional_params`. -/
def toolParams (fields : List FieldInfo) : List String :=
  (splitParams fields).1 ++ (splitParams fields).2

/-- `self.parameters["..."]`-style module names: `_pb2` module of a proto file. -/
def pb2Module (fname : String) : String :=
  strReplace (strReplace fname ".proto" "_pb2") "/" "."

/-- `_pb2_grpc` module of a proto file. -/
def grpcModule (fname : String) : String :=
  strReplace (strReplace fname ".proto" "_pb2_grpc") "/" "."

/-- The `oneofs` dict accumulation: first key occurrence fixes its position,
member names append in field order. -/
def addOneof (acc : List (String × List String)) (k v : String) :
    List (String × List String) :=
  if acc.any (fun p => p.1 == k) then
    acc.map (fun p => if p.1 == k then (p.1, p.2 ++ [v]) else p)
  else acc ++ [(k, [v])]

/-- The oneof-grouping loop of `_generate_method_tool`. -/
def collectOneofsAux (acc : List (String × List String)) :
    List FieldInfo → List (String × List String)
  | [] => acc
  | fi :: rest =>
    collectOneofsAux
      (if fi.is_oneof then addOneof acc (fi.oneof_name.getD "") fi.name else acc) rest

def collectOneofs (fields : List FieldInfo) : List (String × List String) :=
  collectOneofsAux [] fields

/-- The oneof advisory comment block of `_generate_method_tool`. -/
def oneofCommentLines (indentation : String) (fields : List FieldInfo) : List String :=
  let oneofs := collectOneofs fields
  if oneofs.isEmpty then []
  else
    (indentation ++ "    # Oneof validation:") ::
      oneofs.map (fun p =>
        indentation ++ "    # Only one of [" ++ String.intercalate ", " p.2 ++
          "] should be provided for oneof '" ++ p.1 ++ "'")

/-- The field-assignment block: optional fields get a `None` guard. -/
def fieldAssignLines (indentation : String) (fields : List FieldInfo) : List String :=
  fields.flatMap (fun fi =>
    if fi.optional then
      [indentation ++ "    if " ++ fi.name ++ " is not None:",
       indentation ++ "        request." ++ fi.name ++ " = " ++ fi.name]
    else
      [indentation ++ "    request." ++ fi.name ++ " = " ++ fi.name])

/-- The service-name scan of `_generate_grpc_call`: first service owning a
method with the given name. -/
def findServiceName (pf : FileDescriptorProto) (method_name : String) : Option String :=
  (pf.service.find? (fun s => s.method.any (fun m => m.name == method_name))).map
    (fun s => s.name)

/-- `_generate_grpc_call`. -/
def generateGrpcCall (params : Params) (pf : FileDescriptorProto)
    (method : MethodDescriptorProto) (indentation : String) : List String :=
  let method_name := method.name
  let gm := grpcModule pf.name
  let service_name := (findServiceName pf method_name).getD "None"
  let grpc_target :=
    match getGrpcTarget params with
    | some t => if t = "" then "localhost:50051" else t
    | none => "localhost:50051"
  [indentation ++ "    channel = grpc.insecure_channel('" ++ grpc_target ++ "')",
   indentation ++ "    stub = " ++ gm ++ "." ++ service_name ++ "Stub(channel)",
   indentation ++ "    response = stub." ++ method_name ++ "(request)",
   "",
   indentation ++ "    # Convert protobuf response to dict for MCP",
   indentation ++ "    from google.protobuf.json_format import MessageToDict",
   indentation ++ "    result = MessageToDict(response)",
   indentation ++ "    return result"]

/-- `_generate_method_tool`: the lines appended for one unary tool. -/
def generateMethodTool (params : Params) (index : TypeIndex) (comments : Comments)
    (pf : FileDescriptorProto) (method : MethodDescriptorProto)
    (service_index method_index : Nat) (indentation : String) : List String :=
  let method_name := method.name
  let conv := convertToolName params method_name
  let input_fields := analyzeMessageFields index method.input_type
  let param_str := String.intercalate ", " (toolParams input_fields)
  let method_comment := getComment comments pf.name [6, service_index, 2, method_index]
  let docstring :=
    if includeCommentsFlag params ∧ method_comment ≠ "" then
      indentation ++ "    \"\"\"Tool for " ++ method_name ++ " RPC method.\n" ++
        indentation ++ "\n" ++ indentation ++ "    " ++ method_comment.trim ++ "\n" ++
        indentation ++ "    \"\"\""
    else
      indentation ++ "    \"\"\"Tool for " ++ method_name ++ " RPC method.\"\"\""
  let tool_description :=
    if method_comment ≠ "" then (strReplace method_comment "\n" " ").trim
    else "Generated tool for " ++ method_name ++ " RPC method"
  let decorator :=
    indentation ++ "@mcp.tool(name=\"" ++ method_name ++ "\", description=\"" ++
      tool_description ++ "\")"
  let defLine :=
    if isAsyncMode params then
      indentation ++ "async def " ++ conv ++ "(" ++ param_str ++ "):"
    else
      indentation ++ "def " ++ conv ++ "(" ++ param_str ++ "):"
  let constructLines :=
    [indentation ++ "    # Construct request message",
     indentation ++ "    request = " ++ pb2Module pf.name ++ "." ++
       lastDotComponent method.input_type ++ "()"]
  [decorator, defLine, docstring] ++ constructLines ++
    oneofCommentLines indentation input_fields ++
    fieldAssignLines indentation input_fields ++
    (if !input_fields.isEmpty then [""] else []) ++
    generateGrpcCall params pf method indentation

/-! ## Streaming handling (`_handle_streaming_method`,
`_generate_streaming_tool_adapted`) -/

/-- `_generate_streaming_tool_adapted`: the collect-mode adapted tool for a
single-direction streaming method. -/
def generateStreamingToolAdapted (params : Params) (index : TypeIndex)
    (comments : Comments) (pf : FileDescriptorProto)
    (method : MethodDescriptorProto) (service_index method_index : Nat) :
    List String :=
  let method_name := method.name
  let conv := convertToolName params method_name
  let is_client_stream := method.client_streaming
  let is_server_stream := method.server_streaming
  if is_client_stream ∧ is_server_stream then []
  else
    let input_fields := analyzeMessageFields index method.input_type
    let param_list :=
      if is_client_stream then ["requests: List[dict]"] else toolParams input_fields
    let param_str := String.intercalate ", " param_list
    let method_comment := getComment comments pf.name [6, service_index, 2, method_index]
    let stream_type := if is_client_stream then "client streaming" else "server streaming"
    let docstring :=
      if includeCommentsFlag params ∧ method_comment ≠ "" then
        "    \"\"\"Tool for " ++ method_name ++ " RPC method (" ++ stream_type ++
          ").\n    \n    " ++ method_comment ++ "\n    \n    Note: This is a " ++
          stream_type ++ " RPC adapted for MCP.\n    \"\"\""
      else
        "    \"\"\"Tool for " ++ method_name ++ " RPC method (" ++ stream_type ++ ").\"\"\""
    let defLine :=
      if isAsyncMode params then
        "    async def " ++ conv ++ "(" ++ param_str ++ ") -> dict:"
      else
        "    def " ++ conv ++ "(" ++ param_str ++ ") -> dict:"
    ["    @mcp.tool()", defLine, docstring] ++
      ["        # NOTE: This is a " ++ stream_type ++ " RPC adapted for MCP",
       "        # Results are collected and returned as a list",
       ""] ++
      (if is_client_stream then
        ["        # TODO: Implement client streaming logic",
         "        # Process list of requests and send them to the streaming RPC",
         "        # Return collected responses",
         "        return \x7b'error': 'Client streaming not yet implemented'\x7d"]
      else
        ["        # TODO: Implement server streaming logic",
         "        # Send single request and collect all streaming responses",
         "        # Return list of responses",
         "        return \x7b'error': 'Server streaming not yet implemented'\x7d"]) ++
      [""]

/-- `_handle_streaming_method`: route a streaming method by `stream_mode`. -/
def handleStreamingMethod (params : Params) (index : TypeIndex)
    (comments : Comments) (pf : FileDescriptorProto)
    (method : MethodDescriptorProto) (service_index method_index : Nat) :
    List String :=
  let stream_mode := getStreamMode params
  let method_name := method.name
  let is_client_stream := method.client_streaming
  let is_server_stream := method.server_streaming
  if stream_mode = "skip" then
    ["    # Skipped streaming method: " ++ method_name,
     "    # Client streaming: " ++ pyBool is_client_stream ++ ", Server streaming: " ++
       pyBool is_server_stream,
     ""]
  else
    (if stream_mode = "warn" then
      ["    # WARNING: " ++ method_name ++ " is a streaming RPC",
       "    # Client streaming: " ++ pyBool is_client_stream ++ ", Server streaming: " ++
         pyBool is_server_stream,
       "    # Streaming RPCs may not work well with MCP's request/response model",
       ""]
    else []) ++
    (if is_client_stream ∧ is_server_stream ∧ stream_mode = "collect" then
      ["    # NOTE: " ++ method_name ++ " is bidirectional streaming - not supported",
       "    # Consider using separate unary RPCs for MCP integration",
       ""]
    else if stream_mode = "collect" then
      generateStreamingToolAdapted params index comments pf method service_index
        method_index
    else
      generateMethodTool params index comments pf method service_index method_index
        "    ")

/-! ## Per-file emission (`_generate_service_impl`, `generate_file_content`) -/

/-- `_generate_service_impl`: the per-service block.  `service_index` is
computed by `list(proto_file.service).index(service)` — the first position
of a structurally equal service. -/
def generateServiceImpl (params : Params) (index : TypeIndex) (comments : Comments)
    (pf : FileDescriptorProto) (svc : ServiceDescriptorProto) : List String :=
  let service_index := pf.service.indexOf svc
  (if service_index == 0 then ["mcp = FastMCP(\"MCP Server from Proto\")", ""] else []) ++
    svc.method.enum.flatMap (fun p =>
      let method_index := p.1
      let method := p.2
      (if method_index > 0 then [""] else []) ++ [""] ++
        (if method.client_streaming || method.server_streaming then
          handleStreamingMethod params index comments pf method service_index method_index
        else
          generateMethodTool params index comments pf method service_index method_index ""))

/-- `_generate_header`. -/
def generateHeader (pf : FileDescriptorProto) : List String :=
  ["# Generated from " ++ pf.name,
   "# DO NOT EDIT: This file is automatically generated by protoc-gen-py-mcp",
   "# Plugin version: protoc-gen-py-mcp",
   ""]

/-- `_has_optional_fields`. -/
def hasOptionalFields (index : TypeIndex) (pf : FileDescriptorProto) : Bool :=
  pf.service.any (fun s =>
    s.method.any (fun m =>
      (analyzeMessageFields index m.input_type).any (fun fi => fi.optional)))

/-- `_generate_imports`. -/
def generateImports (params : Params) (index : TypeIndex)
    (pf : FileDescriptorProto) : List String :=
  (if isAsyncMode params then ["import asyncio"] else []) ++
    (if hasOptionalFields index pf then ["from typing import Optional"] else []) ++
    ["from fastmcp import FastMCP"] ++
    ["import grpc"] ++
    [""] ++
    ["import " ++ pb2Module pf.name] ++
    ["import " ++ grpcModule pf.name] ++
    [""]

/-- `_generate_main_block`. -/
def generateMainBlock : List String :=
  ["", "", "if __name__ == '__main__':", "    mcp.run()"]

/-- `generate_file_content`: the whole generated Python module text. -/
def generateFileContent (params : Params) (index : TypeIndex) (comments : Comments)
    (pf : FileDescriptorProto) : String :=
  String.intercalate "\n"
    (generateHeader pf ++ generateImports params index pf ++
      pf.service.flatMap (generateServiceImpl params index comments pf) ++
      generateMainBlock) ++ "\n"

/-! ## Plugin driver (`handle_file`, `generate`) -/

/-- `CodeGeneratorResponse`: generated file entries plus the single
(overwritable) `error` string field. -/
structure CodeGeneratorResponse where
  error : Option String := none
  supported_features : Nat := 0
  file : List (String × String) := []
  deriving Repr, DecidableEq

/-- A caught Python exception: its type name, message and formatted
traceback. -/
structure PyException where
  etype : String := ""
  emsg : String := ""
  trace : String := ""
  deriving Repr, DecidableEq

/-- Debug mode as set by `parse_parameters`. -/
def debugMode (params : Params) : Bool :=
  ["true", "1", "yes", "basic", "verbose", "trace"].contains
    (dictGetD params "debug" "").toLower

/-- `_create_detailed_error_context`: the per-file error report.  The
troubleshooting branch keys on substring tests over the exception's type
name, exactly as the source's `in` checks. -/
def createDetailedErrorContext (params : Params) (file_name : String)
    (e : PyException) : String :=
  let context_parts :=
    ["File processing failed: " ++ file_name,
     "Error type: " ++ e.etype,
     "Error message: " ++ e.emsg] ++
    (if containsSub e.etype.data "AttributeError".data then
      ["Troubleshooting: This may indicate a malformed proto file or unsupported proto feature.",
       "Try: Verify your proto file syntax with 'protoc --decode_raw < file.proto'"]
    else if containsSub e.etype.data "KeyError".data then
      ["Troubleshooting: Missing required proto elements or invalid references.",
       "Try: Check that all message types and services are properly defined."]
    else if containsSub e.etype.data "ValueError".data then
      ["Troubleshooting: Invalid parameter values or proto content.",
       "Try: Review plugin parameters and proto file structure."]
    else if containsSub e.etype.data "ImportError".data ||
        containsSub e.etype.data "ModuleNotFoundError".data then
      ["Troubleshooting: Missing dependencies or installation issues.",
       "Try: Run 'pip install protoc-gen-py-mcp[dev]' to ensure all dependencies."]
    else []) ++
    ["",
     "Debug suggestions:",
     "1. Enable debug mode: --py-mcp_opt=\"debug=verbose\"",
     "2. Check proto file: protoc --decode_raw < your_file.proto",
     "3. Verify installation: protoc-gen-py-mcp --version",
     "4. Review documentation: PLUGIN_PARAMETERS.md"] ++
    (if debugMode params then ["", "Stack trace (debug mode):", e.trace] else [])
  String.intercalate "\n" context_parts

/-- The output filename computed by `handle_file`:
`proto_file.name.replace(".proto", suffix)`. -/
def outputFilename (params : Params) (pf : FileDescriptorProto) : String :=
  strReplace pf.name ".proto" (getOutputSuffix params)

/-- `handle_file`.  Python exceptions inside the `try` block are the
fallible part, so content generation is passed as an `Except`-valued
function; a failure sets (overwrites) the response's error field, a success
appends one generated file entry, and a service-less file returns before
doing either. -/
def handleFile (gen : FileDescriptorProto → Except PyException String)
    (params : Params) (pf : FileDescriptorProto)
    (response : CodeGeneratorResponse) : CodeGeneratorResponse :=
  if pf.service.isEmpty then response
  else
    match gen pf with
    | .ok content =>
      { response with file := response.file ++ [(outputFilename params pf, content)] }
    | .error e =>
      { response with error := some (createDetailedErrorContext params pf.name e) }

/-- The `for proto_file in request.proto_file` loop of `generate`: only
requested files are handled. -/
def processFiles (gen : FileDescriptorProto → Except PyException String)
    (params : Params) (requested : List String)
    (files : List FileDescriptorProto) (response : CodeGeneratorResponse) :
    CodeGeneratorResponse :=
  files.foldl
    (fun r pf => if requested.contains pf.name then handleFile gen params pf r else r)
    response

/-- `CodeGeneratorResponse.Feature.FEATURE_PROTO3_OPTIONAL`. -/
def FEATURE_PROTO3_OPTIONAL : Nat := 1

structure CodeGeneratorRequest where
  file_to_generate : List String := []
  parameter : String := ""
  proto_file : List FileDescriptorProto := []
  deriving Repr

/-- One `key=value` item of the parameter string (`split("=", 1)`;
a bare key means `key=true`). -/
def parseOneParam (param : String) : String × String :=
  match param.splitOn "=" with
  | [] => (param.trim, "true")
  | [_] => (param.trim, "true")
  | k :: rest => (k.trim, (String.intercalate "=" rest).trim)

/-- `parse_parameters` (the dictionary it builds; validation only logs). -/
def parseParameters (parameter_string : String) : Params :=
  if parameter_string = "" then []
  else (parameter_string.splitOn ",").map parseOneParam

/-- The in-embedding totalisation of `generate_file_content` used by
`generate` (the Python callee raises no exception on any input expressible
in this model). -/
def pureGen (params : Params) (index : TypeIndex) (comments : Comments) :
    FileDescriptorProto → Except PyException String :=
  fun pf => .ok (generateFileContent params index comments pf)

/-- `generate`: parse parameters, set supported features, build the index
and process every requested file. -/
def generateResponse (request : CodeGeneratorRequest) : CodeGeneratorResponse :=
  let params := parseParameters request.parameter
  let index := buildTypeIndex request.proto_file
  let comments := buildSourceComments request.proto_file
  processFiles (pureGen params index comments) params request.file_to_generate
    request.proto_file
    { error := none, supported_features := FEATURE_PROTO3_OPTIONAL, file := [] }

/-- The stderr log lines a run writes (abbreviated: only their presence
matters — nothing in the response computation ever reads them). -/
def pluginLogLines (request : CodeGeneratorRequest) : List String :=
  if debugMode (parseParameters request.parameter) then
    ["[protoc-gen-py-mcp] Parsed parameters",
     "[protoc-gen-py-mcp] Building type index from all proto files"]
  else []

/-- One process invocation (`main`): reads one request, appends its log
output to the ambient stderr stream, and produces one response. -/
def runPlugin (request : CodeGeneratorRequest) (stderrLog : List String) :
    CodeGeneratorResponse × List String :=
  (generateResponse request, stderrLog ++ pluginLogLines request)

/-! ## Helper lemmas -/

theorem strData_append (a b : String) : (a ++ b).data = a.data ++ b.data := rfl

theorem pyStartsWith_self_append (x p : String) : pyStartsWith (p ++ x) p = true := by
  unfold pyStartsWith
  rw [strData_append, List.isPrefixOf_iff_prefix]
  exact List.prefix_append _ _

/-! ## Claim C4: map-field type mapping -/

/-- C4: for every field that is repeated, of message type, and whose
referenced message descriptor (resolved through the type index) has the
map-entry option set, the computed type hint is `Dict[KeyType, ValueType]`
with key and value types taken from the map-entry message's fields numbered
1 and 2 via the scalar rule, and never the `List[...]` form. -/
theorem c4_map_field_dict_type (index : TypeIndex) (f : FieldDescriptorProto)
    (entry : DescriptorProto)
    (hrep : f.label = LABEL_REPEATED) (hmsg : f.ftype = TYPE_MESSAGE)
    (hlook : dictFind index f.type_name = some entry)
    (hmap : entry.options.map_entry = true) :
    getPythonType index f =
      "Dict[" ++ (getMapTypes index f).1 ++ ", " ++ (getMapTypes index f).2 ++ "]" ∧
    (∀ kf vf, findFieldWithNumber entry.field 1 = some kf →
      findFieldWithNumber entry.field 2 = some vf →
      getMapTypes index f = (getScalarPythonType kf, getScalarPythonType vf)) ∧
    (∀ t : String, getPythonType index f ≠ "List[" ++ t) := by
  have hm : isMapField index f = true := by
    unfold isMapField
    rw [hlook]
    simp [hrep, hmsg, hmap]
  have hd : getPythonType index f =
      "Dict[" ++ (getMapTypes index f).1 ++ ", " ++ (getMapTypes index f).2 ++ "]" := by
    unfold getPythonType
    simp [hm]
  refine ⟨hd, ?_, ?_⟩
  · intro kf vf hk hv
    unfold getMapTypes
    rw [hlook]
    simp [hm, hk, hv]
  · intro t h
    rw [hd] at h
    have h2 := congrArg (fun s : String => s.data.head?) h
    simp [strData_append] at h2

def egMapEntry : DescriptorProto :=
  ⟨"LabelsEntry",
   [⟨"key", 1, 1, TYPE_STRING, "", none, false⟩,
    ⟨"value", 2, 1, TYPE_INT32, "", none, false⟩],
   [], [], [], ⟨true⟩⟩

def egMapField : FieldDescriptorProto :=
  ⟨"labels", 3, LABEL_REPEATED, TYPE_MESSAGE, ".p.M.LabelsEntry", none, false⟩

def egMapIndex : TypeIndex := [(".p.M.LabelsEntry", egMapEntry)]

/-- Witness for C4 at a concrete `map<string, int32>` field. -/
theorem c4_map_field_dict_type_witness :
    getPythonType egMapIndex egMapField = "Dict[str, int]" := by
  have h := c4_map_field_dict_type egMapIndex egMapField egMapEntry rfl rfl rfl rfl
  exact h.1.trans (by decide)

/-! ## Claim C1: required-first parameter partition, proto3_optional fields -/

theorem splitParams_foldl (fs : List FieldInfo) (acc : List String × List String) :
    List.foldl
      (fun acc fi =>
        if fi.optional then (acc.1, acc.2 ++ [fmtOptionalParam fi])
        else (acc.1 ++ [fmtRequiredParam fi], acc.2)) acc fs =
    (acc.1 ++ (fs.filter (fun fi => !fi.optional)).map fmtRequiredParam,
     acc.2 ++ (fs.filter (fun fi => fi.optional)).map fmtOptionalParam) := by
  induction fs generalizing acc with
  | nil => simp
  | cons fi rest ih =>
    by_cases h : fi.optional <;> simp [h, ih]

/-- The emission loop partitions the analyzed fields: required formatting of
the non-optional fields in declaration order, then optional formatting of
the optional fields in declaration order. -/
theorem splitParams_eq (fields : List FieldInfo) :
    splitParams fields =
      ((fields.filter (fun fi => !fi.optional)).map fmtRequiredParam,
       (fields.filter (fun fi => fi.optional)).map fmtOptionalParam) := by
  unfold splitParams
  rw [splitParams_foldl]
  simp

theorem real_contains_false (msg : DescriptorProto) (i : Nat)
    (h : oneofHasProto3Optional msg i = true) :
    (realOneofIndices msg).contains i = false := by
  have hmem : i ∉ realOneofIndices msg := by
    simp [realOneofIndices, List.mem_filter, h]
  simpa using hmem

theorem analyzeOneField_proto3_optional (index : TypeIndex) (msg : DescriptorProto)
    (f : FieldDescriptorProto) (hf : f ∈ msg.field) (hp : f.proto3_optional = true)
    (hl : f.label ≠ LABEL_REPEATED) :
    (analyzeOneField index msg f).optional = true ∧
    (analyzeOneField index msg f).type = "Optional[" ++ getScalarPythonType f ++ "]" := by
  have hmap : isMapField index f = false := by
    unfold isMapField
    simp [hl]
  have htype : getPythonType index f = "Optional[" ++ getScalarPythonType f ++ "]" := by
    unfold getPythonType
    simp [hmap, hl, hp]
  cases hoi : f.oneof_index with
  | none => simp [analyzeOneField, hoi, htype, hp]
  | some i =>
    have hone : oneofHasProto3Optional msg i = true := by
      unfold oneofHasProto3Optional
      apply List.any_eq_true.mpr
      exact ⟨f, hf, by simp [FieldDescriptorProto.oneofIndexVal, hoi, hp]⟩
    have hmem : i ∉ realOneofIndices msg := by
      simp [realOneofIndices, List.mem_filter, hone]
    simp [analyzeOneField, hoi, hmem, htype, hp]

/-- C1: for every input message (hence for every field declaration order),
the emitted parameter list is the required parameters in declaration order
followed by the optional ones (no required parameter follows an optional
one), and every `proto3_optional` field — which in a valid proto3
descriptor is never repeated — is emitted with an `Optional[...]` type hint
and appears in the optional partition with a `None` default. -/
theorem c1_required_first_partition (index : TypeIndex) (name : String) :
    toolParams (analyzeMessageFields index name) =
      ((analyzeMessageFields index name).filter (fun fi => !fi.optional)).map
          fmtRequiredParam ++
        ((analyzeMessageFields index name).filter (fun fi => fi.optional)).map
          fmtOptionalParam ∧
    (∀ msg f, dictFind index name = some msg → f ∈ msg.field →
      f.proto3_optional = true → f.label ≠ LABEL_REPEATED →
      (analyzeOneField index msg f).optional = true ∧
      (analyzeOneField index msg f).type = "Optional[" ++ getScalarPythonType f ++ "]" ∧
      fmtOptionalParam (analyzeOneField index msg f) ∈
        ((analyzeMessageFields index name).filter (fun fi => fi.optional)).map
          fmtOptionalParam) := by
  constructor
  · unfold toolParams
    rw [splitParams_eq]
  · intro msg f hm hf hp hl
    obtain ⟨ho, ht⟩ := analyzeOneField_proto3_optional index msg f hf hp hl
    refine ⟨ho, ht, ?_⟩
    apply List.mem_map_of_mem
    apply List.mem_filter.mpr
    refine ⟨?_, ho⟩
    unfold analyzeMessageFields
    rw [hm]
    exact List.mem_map_of_mem _ hf

def egNickField : FieldDescriptorProto := ⟨"nick", 1, 1, TYPE_STRING, "", some 0, true⟩

def egOptMsg : DescriptorProto :=
  ⟨"Req",
   [egNickField, ⟨"id", 2, 1, TYPE_STRING, "", none, false⟩],
   [], [], [⟨"_nick"⟩], ⟨false⟩⟩

def egOptIndex : TypeIndex := [(".t.Req", egOptMsg)]

/-- Witness for C1: a message declaring the optional field first still emits
the required parameter first, with the proto3_optional field
Optional-wrapped and `None`-defaulted. -/
theorem c1_required_first_partition_witness :
    toolParams (analyzeMessageFields egOptIndex ".t.Req") =
      ["id: str", "nick: Optional[str] = None"] ∧
    (analyzeOneField egOptIndex egOptMsg egNickField).type = "Optional[str]" := by
  have h := c1_required_first_partition egOptIndex ".t.Req"
  have h2 := h.2 egOptMsg egNickField rfl (by decide) rfl (by decide)
  constructor
  · rw [h.1]
    decide
  · exact h2.2.1.trans (by decide)

/-! ## Claim C2: synthetic vs. real oneof classification -/

def c2MixedMsg : DescriptorProto :=
  ⟨"Mixed",
   [⟨"a", 1, 1, TYPE_STRING, "", some 0, true⟩,
    ⟨"b", 2, 1, TYPE_STRING, "", some 0, false⟩],
   [], [], [⟨"choice"⟩], ⟨false⟩⟩

/-- Counterexample to C2 as stated: in the message `Mixed`, oneof group 0 is
mixed — member `a` carries `proto3_optional`, member `b` does not — so by
the claim it must be classified real; but the analyzer's real-oneof set is
empty, i.e. the group is classified synthetic. -/
theorem c2_oneof_classification_counterexample :
    c2MixedMsg.oneof_decl.length = 1 ∧
    (∃ f ∈ c2MixedMsg.field, f.oneofIndexVal = 0 ∧ f.proto3_optional = false) ∧
    realOneofIndices c2MixedMsg = [] := by decide

theorem analyzeOneField_is_oneof_eq (index : TypeIndex) (msg : DescriptorProto)
    (f : FieldDescriptorProto) :
    (analyzeOneField index msg f).is_oneof =
      (match f.oneof_index with
       | some i => (realOneofIndices msg).contains i
       | none => false) := rfl

theorem collectOneofsAux_no_oneof (fields : List FieldInfo)
    (hall : ∀ fi ∈ fields, fi.is_oneof = false)
    (acc : List (String × List String)) :
    collectOneofsAux acc fields = acc := by
  induction fields generalizing acc with
  | nil => rfl
  | cons fi rest ih =>
    have h1 : fi.is_oneof = false := hall fi (by simp)
    simp only [collectOneofsAux, h1]
    simp only [Bool.false_eq_true, if_false]
    exact ih (fun g hg => hall g (List.mem_cons_of_mem _ hg)) acc

theorem oneofCommentLines_of_no_oneof (indentation : String) (fields : List FieldInfo)
    (hall : ∀ fi ∈ fields, fi.is_oneof = false) :
    oneofCommentLines indentation fields = [] := by
  unfold oneofCommentLines collectOneofs
  rw [collectOneofsAux_no_oneof fields hall]
  rfl

/-- C2 amended: a oneof group is classified synthetic iff *at least one*
member field carries `proto3_optional` (members matched by the
`oneof_index` value, defaulting to 0 when unset) — equivalently, real iff
no member carries it; a mixed group is therefore classified synthetic, not
real.  No member of a synthetic group is marked as oneof in the analysis,
and a message all of whose oneof groups are synthetic triggers no
oneof-exclusivity comment in the generated code. -/
theorem c2_oneof_classification_amended (msg : DescriptorProto) (i : Nat) :
    (i < msg.oneof_decl.length →
      ((i ∈ realOneofIndices msg) ↔
        ∀ f ∈ msg.field, f.oneofIndexVal = i → f.proto3_optional = false)) ∧
    (∀ (index : TypeIndex) (f : FieldDescriptorProto), f.oneof_index = some i →
      oneofHasProto3Optional msg i = true →
      (analyzeOneField index msg f).is_oneof = false) ∧
    (∀ (index : TypeIndex) (name indentation : String) (m : DescriptorProto),
      dictFind index name = some m → realOneofIndices m = [] →
      oneofCommentLines indentation (analyzeMessageFields index name) = []) := by
  refine ⟨?_, ?_, ?_⟩
  · intro hi
    simp only [realOneofIndices, List.mem_filter, List.mem_range, hi, true_and,
      oneofHasProto3Optional, Bool.not_eq_true', List.any_eq_false, Bool.and_eq_true,
      beq_iff_eq, not_and, FieldDescriptorProto.oneofIndexVal]
    constructor
    · intro h f hf hv
      have := h f hf
      simp [FieldDescriptorProto.oneofIndexVal, hv] at this
      exact this
    · intro h f hf
      by_cases hv : f.oneof_index.getD 0 = i
      · simp [hv, h f hf hv]
      · simp [hv]
  · intro index f hoi hone
    have hmem : i ∉ realOneofIndices msg := by
      simp [realOneofIndices, List.mem_filter, hone]
    rw [analyzeOneField_is_oneof_eq, hoi]
    simpa using hmem
  · intro index name indentation m hm hreal
    apply oneofCommentLines_of_no_oneof
    intro fi hfi
    unfold analyzeMessageFields at hfi
    rw [hm] at hfi
    obtain ⟨f, hf, rfl⟩ := List.mem_map.mp hfi
    rw [analyzeOneField_is_oneof_eq]
    cases f.oneof_index with
    | none => rfl
    | some j => simp [hreal]

def c2FieldA : FieldDescriptorProto := ⟨"a", 1, 1, TYPE_STRING, "", some 0, true⟩

def c2SynMsg : DescriptorProto :=
  ⟨"Syn",
   [c2FieldA, ⟨"b", 2, 1, TYPE_STRING, "", some 1, true⟩],
   [], [], [⟨"_a"⟩, ⟨"_b"⟩], ⟨false⟩⟩

/-- Witness for the amended C2 at a message with two synthetic oneofs. -/
theorem c2_oneof_classification_amended_witness :
    ((0 ∈ realOneofIndices c2SynMsg) ↔
      ∀ f ∈ c2SynMsg.field, f.oneofIndexVal = 0 → f.proto3_optional = false) ∧
    (analyzeOneField [] c2SynMsg c2FieldA).is_oneof = false ∧
    oneofCommentLines "" (analyzeMessageFields [(".t.Syn", c2SynMsg)] ".t.Syn") = [] := by
  have h := c2_oneof_classification_amended c2SynMsg 0
  exact ⟨h.1 (by decide), h.2.1 [] c2FieldA rfl (by decide),
    h.2.2 [(".t.Syn", c2SynMsg)] ".t.Syn" "" c2SynMsg rfl (by decide)⟩

/-! ## Claim C3: real-oneof advisory comment and optional wrapping -/

/-- The member names the `oneofs` accumulation collects for key `k`. -/
def selNames (k : String) (fields : List FieldInfo) : List String :=
  (fields.filter (fun fi => fi.is_oneof && (fi.oneof_name.getD "" == k))).map
    FieldInfo.name

theorem lookup_cons_eq {β : Type} (k : String) (v : β) (rest : List (String × β)) :
    List.lookup k ((k, v) :: rest) = some v := by
  simp [List.lookup]

theorem lookup_cons_ne {β : Type} (k : String) (p : String × β)
    (rest : List (String × β)) (h : p.1 ≠ k) :
    List.lookup k (p :: rest) = List.lookup k rest := by
  obtain ⟨k', v⟩ := p
  have hb : (k == k') = false := by
    simp only [beq_eq_false_iff_ne, ne_eq]
    exact fun he => h (by simpa using he.symm)
  simp [List.lookup, hb]

theorem lookup_append {β : Type} (l l' : List (String × β)) (k : String) :
    List.lookup k (l ++ l') =
      match List.lookup k l with
      | some v => some v
      | none => List.lookup k l' := by
  induction l with
  | nil => simp
  | cons p rest ih =>
    by_cases h : p.1 = k
    · subst h
      obtain ⟨k', v⟩ := p
      simp [lookup_cons_eq]
    · rw [List.cons_append, lookup_cons_ne k p _ h, lookup_cons_ne k p rest h, ih]

theorem upd_head_eq (k v : String) (q : String × List String) (h : q.1 = k) :
    (if q.1 == k then (q.1, q.2 ++ [v]) else q) = (q.1, q.2 ++ [v]) := by
  simp [h]

theorem upd_head_ne (k v : String) (q : String × List String) (h : q.1 ≠ k) :
    (if q.1 == k then (q.1, q.2 ++ [v]) else q) = q := by
  simp [h]

theorem lookup_map_upd (l : List (String × List String)) (k k' v : String)
    (h : k' ≠ k) :
    List.lookup k'
        (l.map (fun p => if p.1 == k then (p.1, p.2 ++ [v]) else p)) =
      List.lookup k' l := by
  induction l with
  | nil => rfl
  | cons p rest ih =>
    obtain ⟨k₀, v₀⟩ := p
    rw [List.map_cons]
    by_cases hpk : k₀ = k
    · rw [upd_head_eq k v (k₀, v₀) hpk]
      rw [lookup_cons_ne k' (k₀, v₀ ++ [v]) _ (fun he => h (he.symm.trans hpk)),
        lookup_cons_ne k' (k₀, v₀) rest (fun he => h (he.symm.trans hpk)), ih]
    · rw [upd_head_ne k v (k₀, v₀) hpk]
      by_cases hk0 : k₀ = k'
      · subst hk0
        rw [lookup_cons_eq, lookup_cons_eq]
      · rw [lookup_cons_ne k' (k₀, v₀) _ hk0, lookup_cons_ne k' (k₀, v₀) rest hk0, ih]

theorem any_key_iff (acc : List (String × List String)) (k : String) :
    acc.any (fun p => p.1 == k) = (List.lookup k acc).isSome := by
  induction acc with
  | nil => rfl
  | cons p rest ih =>
    obtain ⟨k₀, v₀⟩ := p
    rw [List.any_cons]
    by_cases h : k₀ = k
    · subst h
      rw [lookup_cons_eq]
      simp
    · have hb : ((k₀, v₀).1 == k) = false := by simpa using h
      rw [lookup_cons_ne k (k₀, v₀) rest h, hb, Bool.false_or, ih]

theorem lookup_map_upd_self (l : List (String × List String)) (k v : String)
    (hs : (List.lookup k l).isSome) :
    List.lookup k (l.map (fun p => if p.1 == k then (p.1, p.2 ++ [v]) else p)) =
      some ((List.lookup k l).getD [] ++ [v]) := by
  induction l with
  | nil => simp at hs
  | cons p rest ih =>
    obtain ⟨k₀, v₀⟩ := p
    rw [List.map_cons]
    by_cases h : k₀ = k
    · subst h
      rw [upd_head_eq k₀ v (k₀, v₀) rfl]
      rw [lookup_cons_eq, lookup_cons_eq]
      rfl
    · rw [upd_head_ne k v (k₀, v₀) h, lookup_cons_ne k (k₀, v₀) _ h]
      rw [lookup_cons_ne k (k₀, v₀) rest h] at hs ⊢
      exact ih hs

theorem lookup_addOneof_self (acc : List (String × List String)) (k v : String) :
    List.lookup k (addOneof acc k v) =
      some ((List.lookup k acc).getD [] ++ [v]) := by
  unfold addOneof
  by_cases hany : acc.any (fun p => p.1 == k)
  · rw [if_pos hany]
    refine lookup_map_upd_self acc k v ?_
    rw [← any_key_iff]
    exact hany
  · rw [if_neg hany, lookup_append]
    rw [any_key_iff] at hany
    have hnone : List.lookup k acc = none := by
      cases h : List.lookup k acc with
      | none => rfl
      | some l => rw [h] at hany; simp at hany
    simp only [hnone, lookup_cons_eq]
    rfl

theorem lookup_addOneof_ne (acc : List (String × List String)) (k k' v : String)
    (h : k' ≠ k) :
    List.lookup k' (addOneof acc k v) = List.lookup k' acc := by
  unfold addOneof
  by_cases hany : acc.any (fun p => p.1 == k)
  · rw [if_pos hany, lookup_map_upd acc k k' v h]
  · rw [if_neg hany, lookup_append]
    cases hl : List.lookup k' acc with
    | none => rw [lookup_cons_ne k' (k, [v]) [] (fun he => h he.symm)]; rfl
    | some l => rfl

theorem collectOneofsAux_lookup (fields : List FieldInfo)
    (acc : List (String × List String)) (k : String) :
    List.lookup k (collectOneofsAux acc fields) =
      match List.lookup k acc with
      | some l => some (l ++ selNames k fields)
      | none => if selNames k fields = [] then none else some (selNames k fields) := by
  induction fields generalizing acc with
  | nil =>
    cases h : List.lookup k acc <;> simp [collectOneofsAux, selNames, h]
  | cons fi rest ih =>
    by_cases ho : fi.is_oneof
    · by_cases hk : fi.oneof_name.getD "" = k
      · have hsel : selNames k (fi :: rest) = fi.name :: selNames k rest := by
          simp [selNames, List.filter_cons, ho, hk]
        simp only [collectOneofsAux, ho, if_true, hsel]
        rw [ih, hk, lookup_addOneof_self]
        cases hacc : List.lookup k acc with
        | none => simp
        | some l => simp
      · have hsel : selNames k (fi :: rest) = selNames k rest := by
          have hb : (fi.oneof_name.getD "" == k) = false := by simpa using hk
          simp [selNames, List.filter_cons, hb]
        simp only [collectOneofsAux, ho, if_true, hsel]
        rw [ih, lookup_addOneof_ne acc (fi.oneof_name.getD "") k fi.name
          (fun he => hk he.symm)]
    · have hb : fi.is_oneof = false := by simpa using ho
      have hsel : selNames k (fi :: rest) = selNames k rest := by
        simp [selNames, List.filter_cons, hb]
      simp only [collectOneofsAux, hb, Bool.false_eq_true, if_false, hsel]
      rw [ih]

theorem lookup_mem {β : Type} (l : List (String × β)) (k : String) (v : β)
    (h : List.lookup k l = some v) : (k, v) ∈ l := by
  induction l with
  | nil => simp [List.lookup] at h
  | cons p rest ih =>
    by_cases hk : p.1 = k
    · obtain ⟨k', v'⟩ := p
      simp only at hk
      subst hk
      rw [lookup_cons_eq] at h
      simp only [Option.some_inj] at h
      subst h
      exact List.mem_cons_self _ _
    · rw [lookup_cons_ne k p rest hk] at h
      exact List.mem_cons_of_mem _ (ih h)

theorem analyzeOneField_name (index : TypeIndex) (msg : DescriptorProto)
    (f : FieldDescriptorProto) : (analyzeOneField index msg f).name = f.name := rfl

theorem analyzeOneField_oneof_name (index : TypeIndex) (msg : DescriptorProto)
    (f : FieldDescriptorProto) :
    (analyzeOneField index msg f).oneof_name =
      (match f.oneof_index with
       | some i =>
         if (realOneofIndices msg).contains i then
           some (((msg.oneof_decl.get? i).getD default).name)
         else none
       | none => none) := rfl

theorem realOneofIndices_lt (msg : DescriptorProto) (i : Nat)
    (h : i ∈ realOneofIndices msg) : i < msg.oneof_decl.length := by
  have := List.mem_filter.mp h
  simpa using this.1

theorem oneof_names_ne (msg : DescriptorProto)
    (hnodup : (msg.oneof_decl.map OneofDescriptorProto.name).Nodup)
    (i j : Nat) (hi : i < msg.oneof_decl.length) (hj : j < msg.oneof_decl.length)
    (hne : i ≠ j) :
    ((msg.oneof_decl.get? i).getD default).name ≠
      ((msg.oneof_decl.get? j).getD default).name := by
  intro he
  apply hne
  have h1 : msg.oneof_decl.get? i = some (msg.oneof_decl.get ⟨i, hi⟩) :=
    List.get?_eq_get hi
  have h2 : msg.oneof_decl.get? j = some (msg.oneof_decl.get ⟨j, hj⟩) :=
    List.get?_eq_get hj
  rw [h1, h2] at he
  simp only [Option.getD_some] at he
  have hmap : (msg.oneof_decl.map OneofDescriptorProto.name).get? i =
      (msg.oneof_decl.map OneofDescriptorProto.name).get? j := by
    rw [ List.get?_map, List.get?_map, h1, h2]
    simpa using he
  exact List.get?_inj (by simpa using hi) hnodup hmap

theorem analyzed_sel_pred (index : TypeIndex) (msg : DescriptorProto) (i : Nat)
    (hreal : i ∈ realOneofIndices msg)
    (hnodup : (msg.oneof_decl.map OneofDescriptorProto.name).Nodup)
    (f : FieldDescriptorProto) :
    ((analyzeOneField index msg f).is_oneof &&
      ((analyzeOneField index msg f).oneof_name.getD "" ==
        ((msg.oneof_decl.get? i).getD default).name)) =
      (f.oneof_index == some i) := by
  rw [analyzeOneField_is_oneof_eq, analyzeOneField_oneof_name]
  cases hoi : f.oneof_index with
  | none => simp
  | some j =>
    by_cases hj : j ∈ realOneofIndices msg
    · by_cases hij : j = i
      · subst hij
        simp [hj]
      · have hname := oneof_names_ne msg hnodup j i
          (realOneofIndices_lt msg j hj) (realOneofIndices_lt msg i hreal) hij
        have hb : (((msg.oneof_decl[j]?.getD default).name ==
            (msg.oneof_decl[i]?.getD default).name)) = false := by
          simpa using hname
        simp [hj, hb, hij]
    · have hij : j ≠ i := fun he => hj (he ▸ hreal)
      simp [hj, hij]

theorem selNames_analyzed (index : TypeIndex) (msg : DescriptorProto) (i : Nat)
    (hreal : i ∈ realOneofIndices msg)
    (hnodup : (msg.oneof_decl.map OneofDescriptorProto.name).Nodup) :
    selNames (((msg.oneof_decl.get? i).getD default).name)
        (msg.field.map (analyzeOneField index msg)) =
      (msg.field.filter (fun f => f.oneof_index == some i)).map
        FieldDescriptorProto.name := by
  unfold selNames
  rw [ List.filter_map, List.map_map]
  simp only [Function.comp_def]
  rw [ List.filter_congr (fun f _ => analyzed_sel_pred index msg i hreal hnodup f)]
  rfl

/-- C3: for every oneof group the code classifies real, the advisory
comment names exactly the group's member fields (in declaration order), and
every member's emitted parameter type is Optional-wrapped. -/
theorem c3_real_oneof_members (index : TypeIndex) (name indentation : String)
    (msg : DescriptorProto) (i : Nat)
    (hmsg : dictFind index name = some msg)
    (hnodup : (msg.oneof_decl.map OneofDescriptorProto.name).Nodup)
    (hreal : i ∈ realOneofIndices msg) :
    List.lookup (((msg.oneof_decl.get? i).getD default).name)
        (collectOneofs (analyzeMessageFields index name)) =
      (if ((msg.field.filter (fun f => f.oneof_index == some i)).map
            FieldDescriptorProto.name) = [] then none
       else some ((msg.field.filter (fun f => f.oneof_index == some i)).map
            FieldDescriptorProto.name)) ∧
    (((msg.field.filter (fun f => f.oneof_index == some i)).map
        FieldDescriptorProto.name) ≠ [] →
      (indentation ++ "    # Only one of [" ++
        String.intercalate ", "
          ((msg.field.filter (fun f => f.oneof_index == some i)).map
            FieldDescriptorProto.name) ++
        "] should be provided for oneof '" ++
        ((msg.oneof_decl.get? i).getD default).name ++ "'") ∈
        oneofCommentLines indentation (analyzeMessageFields index name)) ∧
    (∀ f ∈ msg.field, f.oneof_index = some i →
      pyStartsWith (analyzeOneField index msg f).type "Optional[" = true) := by
  have hfields : analyzeMessageFields index name =
      msg.field.map (analyzeOneField index msg) := by
    unfold analyzeMessageFields
    rw [hmsg]
  have hlook : List.lookup (((msg.oneof_decl.get? i).getD default).name)
      (collectOneofs (analyzeMessageFields index name)) =
      (if ((msg.field.filter (fun f => f.oneof_index == some i)).map
            FieldDescriptorProto.name) = [] then none
       else some ((msg.field.filter (fun f => f.oneof_index == some i)).map
            FieldDescriptorProto.name)) := by
    unfold collectOneofs
    rw [collectOneofsAux_lookup, hfields, selNames_analyzed index msg i hreal hnodup]
    rfl
  refine ⟨hlook, ?_, ?_⟩
  · intro hne
    rw [if_neg hne] at hlook
    have hmem := lookup_mem _ _ _ hlook
    unfold oneofCommentLines
    have hnonempty : (collectOneofs (analyzeMessageFields index name)).isEmpty = false := by
      simpa using List.ne_nil_of_mem hmem
    simp only [hnonempty, Bool.false_eq_true, if_false]
    apply List.mem_cons_of_mem
    exact List.mem_map_of_mem
      (fun p => indentation ++ "    # Only one of [" ++ String.intercalate ", " p.2 ++
        "] should be provided for oneof '" ++ p.1 ++ "'") hmem
  · intro f _ hoi
    have hcon : (realOneofIndices msg).contains i = true := by simpa using hreal
    show pyStartsWith (analyzeOneField index msg f).type "Optional[" = true
    unfold analyzeOneField
    rw [hoi]
    simp only [hcon, if_true, Bool.true_and]
    by_cases hsw : pyStartsWith (getPythonType index f) "Optional[" = true
    · simp [hsw]
    · have hsw2 : pyStartsWith (getPythonType index f) "Optional[" = false := by
        simpa using hsw
      simp only [hsw2, Bool.not_false, if_true]
      rw [String.append_assoc]
      exact pyStartsWith_self_append _ _

def c3RealMsg : DescriptorProto :=
  ⟨"OneofRequest",
   [⟨"id", 1, 1, TYPE_STRING, "", none, false⟩,
    ⟨"create", 2, 1, TYPE_STRING, "", some 0, false⟩,
    ⟨"update", 3, 1, TYPE_STRING, "", some 0, false⟩,
    ⟨"delete", 4, 1, TYPE_BOOL, "", some 0, false⟩],
   [], [], [⟨"action"⟩], ⟨false⟩⟩

def c3Index : TypeIndex := [(".t.OneofRequest", c3RealMsg)]

/-- Witness for C3: the three-member real oneof `action` yields an advisory
comment naming exactly its three members, each Optional-wrapped. -/
theorem c3_real_oneof_members_witness :
    ("    # Only one of [create, update, delete] should be provided for oneof 'action'") ∈
      oneofCommentLines "" (analyzeMessageFields c3Index ".t.OneofRequest") ∧
    pyStartsWith (analyzeOneField c3Index c3RealMsg
      ⟨"delete", 4, 1, TYPE_BOOL, "", some 0, false⟩).type "Optional[" = true := by
  have h := c3_real_oneof_members c3Index ".t.OneofRequest" "" c3RealMsg 0 rfl
    (by decide) (by decide)
  refine ⟨?_, ?_⟩
  · have h2 := h.2.1 (by decide)
    revert h2
    decide
  · exact h.2.2 ⟨"delete", 4, 1, TYPE_BOOL, "", some 0, false⟩ (by decide) rfl

/-! ## Claim C5: streaming policy by stream_mode -/

/-- C5: for a method with at least one streaming flag set — under
`stream_mode=skip`, only the two comment lines and a blank line are emitted
(no function) for any direction; under `stream_mode=collect`, a
bidirectional method yields only the note comment lines, never a function;
under `stream_mode=warn`, the output is the four warning-comment lines
followed by the full unary-shaped tool. -/
theorem c5_stream_mode_policies (params : Params) (index : TypeIndex)
    (comments : Comments) (pf : FileDescriptorProto)
    (method : MethodDescriptorProto) (si mi : Nat)
    (_hstream : method.client_streaming = true ∨ method.server_streaming = true) :
    (getStreamMode params = "skip" →
      handleStreamingMethod params index comments pf method si mi =
        ["    # Skipped streaming method: " ++ method.name,
         "    # Client streaming: " ++ pyBool method.client_streaming ++
           ", Server streaming: " ++ pyBool method.server_streaming,
         ""]) ∧
    (getStreamMode params = "collect" → method.client_streaming = true →
      method.server_streaming = true →
      handleStreamingMethod params index comments pf method si mi =
        ["    # NOTE: " ++ method.name ++ " is bidirectional streaming - not supported",
         "    # Consider using separate unary RPCs for MCP integration",
         ""]) ∧
    (getStreamMode params = "warn" →
      handleStreamingMethod params index comments pf method si mi =
        ["    # WARNING: " ++ method.name ++ " is a streaming RPC",
         "    # Client streaming: " ++ pyBool method.client_streaming ++
           ", Server streaming: " ++ pyBool method.server_streaming,
         "    # Streaming RPCs may not work well with MCP's request/response model",
         ""] ++
          generateMethodTool params index comments pf method si mi "    ") := by
  refine ⟨?_, ?_, ?_⟩
  · intro hm
    simp [handleStreamingMethod, hm]
  · intro hm hc hs
    simp [handleStreamingMethod, hm, hc, hs]
  · intro hm
    simp [handleStreamingMethod, hm]

def c5Method : MethodDescriptorProto := ⟨"StreamData", ".t.X", ".t.Y", true, true⟩

def c5File : FileDescriptorProto :=
  ⟨"stream.proto", "t", [], [], [⟨"S", [c5Method]⟩], []⟩

/-- Witness for C5: a bidirectional method under the three stream modes. -/
theorem c5_stream_mode_policies_witness :
    handleStreamingMethod [("stream_mode", "skip")] [] [] c5File c5Method 0 0 =
      ["    # Skipped streaming method: StreamData",
       "    # Client streaming: True, Server streaming: True",
       ""] ∧
    handleStreamingMethod [("stream_mode", "collect")] [] [] c5File c5Method 0 0 =
      ["    # NOTE: StreamData is bidirectional streaming - not supported",
       "    # Consider using separate unary RPCs for MCP integration",
       ""] ∧
    handleStreamingMethod [("stream_mode", "warn")] [] [] c5File c5Method 0 0 =
      ["    # WARNING: StreamData is a streaming RPC",
       "    # Client streaming: True, Server streaming: True",
       "    # Streaming RPCs may not work well with MCP's request/response model",
       ""] ++
        generateMethodTool [("stream_mode", "warn")] [] [] c5File c5Method 0 0 "    " := by
  refine ⟨?_, ?_, ?_⟩
  · exact ((c5_stream_mode_policies [("stream_mode", "skip")] [] [] c5File c5Method 0 0
      (Or.inl rfl)).1 rfl).trans (by decide)
  · exact ((c5_stream_mode_policies [("stream_mode", "collect")] [] [] c5File c5Method 0 0
      (Or.inl rfl)).2.1 rfl rfl rfl).trans (by decide)
  · refine ((c5_stream_mode_policies [("stream_mode", "warn")] [] [] c5File c5Method 0 0
      (Or.inl rfl)).2.2 rfl).trans ?_
    exact congrArg
      (fun l => l ++ generateMethodTool [("stream_mode", "warn")] [] [] c5File c5Method 0 0 "    ")
      (by decide)

/-! ## Claim C6: files without services yield no output and no error -/

/-- C6: processing a proto file that defines zero services leaves the
response untouched: no generated file entry is added and no error is set,
whatever the content generator would have produced. -/
theorem c6_no_services_no_output
    (gen : FileDescriptorProto → Except PyException String) (params : Params)
    (pf : FileDescriptorProto) (response : CodeGeneratorResponse)
    (hsvc : pf.service = []) :
    handleFile gen params pf response = response := by
  unfold handleFile
  simp [hsvc]

def c6File : FileDescriptorProto := ⟨"empty.proto", "t", [], [], [], []⟩

/-- Witness for C6 at a concrete service-less file. -/
theorem c6_no_services_no_output_witness :
    handleFile (fun pf => Except.ok (generateFileContent [] [] [] pf)) [] c6File
      ⟨none, FEATURE_PROTO3_OPTIONAL, []⟩ = ⟨none, FEATURE_PROTO3_OPTIONAL, []⟩ :=
  c6_no_services_no_output _ [] c6File _ rfl

/-! ## Claim C7: fully-qualified names assigned by the indexer -/

/-- Ancestor name chain joined with dots (spec-side helper). -/
def dotJoin : List String → String
  | [] => ""
  | [c] => c
  | c :: rest => c ++ "." ++ dotJoin rest

/-- The name the indexer assigns, stated over the explicit ancestor chain:
`.pkg.Outer.Inner.Leaf` for a nonempty package; for an empty package a
top-level message gets `.Name` and a nested message gets a leading *double*
dot (`..Outer.Inner`) because the empty package segment is still glued
between two dots. -/
def specQualifiedName (pkg : String) (chain : List String) (mname : String) : String :=
  if chain.isEmpty then
    (if pkg ≠ "" then "." ++ pkg ++ "." ++ mname else "." ++ mname)
  else
    (if pkg ≠ "" then "." ++ pkg ++ "." else "..") ++ dotJoin chain ++ "." ++ mname

mutual

/-- Chain-indexed restatement of `_index_messages` for one message: the
message's own entry first, then the entries of its nested subtree. -/
def specAssignOne (pkg : String) (chain : List String) (m : DescriptorProto) :
    TypeIndex :=
  (specQualifiedName pkg chain m.name, m) ::
    (if !m.nested_type.isEmpty then specAssignList pkg (chain ++ [m.name]) m.nested_type
     else [])
termination_by sizeOf m
decreasing_by cases m; simp [DescriptorProto.mk.sizeOf_spec]; omega

/-- Chain-indexed restatement of `_index_messages` over sibling messages. -/
def specAssignList (pkg : String) (chain : List String) :
    List DescriptorProto → TypeIndex
  | [] => []
  | m :: rest => specAssignOne pkg chain m ++ specAssignList pkg chain rest
termination_by l => sizeOf l
decreasing_by all_goals (simp; try omega)

end

mutual

/-- Every message name in the tree is nonempty (valid proto identifiers). -/
def namesNonemptyOne (m : DescriptorProto) : Bool :=
  (decide (m.name ≠ "")) && namesNonemptyList m.nested_type
termination_by sizeOf m
decreasing_by cases m; simp [DescriptorProto.mk.sizeOf_spec]; omega

/-- `namesNonemptyOne` over sibling messages. -/
def namesNonemptyList : List DescriptorProto → Bool
  | [] => true
  | m :: rest => namesNonemptyOne m && namesNonemptyList rest
termination_by l => sizeOf l
decreasing_by all_goals (simp; try omega)

end

theorem append_dot_ne_empty (a b : String) : a ++ "." ++ b ≠ "" := by
  intro h
  have h2 := congrArg String.data h
  simp [strData_append] at h2

theorem dotJoin_cons_cons (c d : String) (tail : List String) :
    dotJoin (c :: d :: tail) = c ++ "." ++ dotJoin (d :: tail) := rfl

theorem dotJoin_append_one (chain : List String) (x : String) (h : chain ≠ []) :
    dotJoin (chain ++ [x]) = dotJoin chain ++ "." ++ x := by
  induction chain with
  | nil => cases h rfl
  | cons c rest ih =>
    cases rest with
    | nil => simp [dotJoin]
    | cons d tail =>
      have hx := ih (by simp)
      rw [List.cons_append] at hx
      rw [List.cons_append, List.cons_append, dotJoin_cons_cons, hx, dotJoin_cons_cons]
      simp [String.append_assoc]

theorem indexMessagesList_nil (pkg parent : String) :
    indexMessagesList pkg parent [] = [] := by
  conv_lhs => rw [indexMessagesList.eq_def]

theorem indexMessagesList_cons (pkg parent : String) (m : DescriptorProto)
    (rest : List DescriptorProto) :
    indexMessagesList pkg parent (m :: rest) =
      indexMessageOne pkg parent m ++ indexMessagesList pkg parent rest := by
  conv_lhs => rw [indexMessagesList.eq_def]

theorem specAssignList_nil (pkg : String) (chain : List String) :
    specAssignList pkg chain [] = [] := by
  conv_lhs => rw [specAssignList.eq_def]

theorem specAssignList_cons (pkg : String) (chain : List String)
    (m : DescriptorProto) (rest : List DescriptorProto) :
    specAssignList pkg chain (m :: rest) =
      specAssignOne pkg chain m ++ specAssignList pkg chain rest := by
  conv_lhs => rw [specAssignList.eq_def]

theorem code_name_eq_spec (pkg : String) (chain : List String) (mname : String)
    (hch : chain ≠ [] → dotJoin chain ≠ "") :
    (if dotJoin chain ≠ "" then "." ++ pkg ++ "." ++ dotJoin chain ++ "." ++ mname
     else if pkg ≠ "" then "." ++ pkg ++ "." ++ mname else "." ++ mname) =
      specQualifiedName pkg chain mname := by
  cases chain with
  | nil => simp [dotJoin, specQualifiedName]
  | cons c tail =>
    have hjoin : dotJoin (c :: tail) ≠ "" := hch (by simp)
    rw [if_pos hjoin]
    unfold specQualifiedName
    have hce : (c :: tail).isEmpty = false := rfl
    rw [hce]
    simp only [Bool.false_eq_true, if_false]
    by_cases hp : pkg = ""
    · subst hp
      simp only [ne_eq, not_true_eq_false, if_false]
      rfl
    · rw [if_pos hp]

theorem code_nested_parent_eq_spec (chain : List String) (mname : String)
    (hch : chain ≠ [] → dotJoin chain ≠ "") :
    (if dotJoin chain ≠ "" then dotJoin chain ++ "." ++ mname else mname) =
      dotJoin (chain ++ [mname]) := by
  cases chain with
  | nil => simp [dotJoin]
  | cons c tail =>
    have hjoin : dotJoin (c :: tail) ≠ "" := hch (by simp)
    rw [if_pos hjoin, dotJoin_append_one (c :: tail) mname (by simp)]

theorem c7_refine_aux (n : Nat) :
    ∀ (pkg : String) (chain : List String) (msgs : List DescriptorProto),
      sizeOf msgs ≤ n →
      namesNonemptyList msgs = true →
      (chain ≠ [] → dotJoin chain ≠ "") →
      indexMessagesList pkg (dotJoin chain) msgs = specAssignList pkg chain msgs := by
  induction n with
  | zero =>
    intro pkg chain msgs hsz _ _
    cases msgs with
    | nil => rw [indexMessagesList_nil, specAssignList_nil]
    | cons m rest => simp at hsz
  | succ n ih =>
    intro pkg chain msgs hsz hnames hch
    cases msgs with
    | nil => rw [indexMessagesList_nil, specAssignList_nil]
    | cons m rest =>
      have hsz1 : sizeOf m.nested_type ≤ n := by
        cases m
        simp at hsz ⊢
        omega
      have hsz2 : sizeOf rest ≤ n := by
        simp at hsz
        omega
      have hn1 : namesNonemptyOne m = true := by
        unfold namesNonemptyList at hnames
        exact (Bool.and_eq_true_iff.mp hnames).1
      have hn2 : namesNonemptyList rest = true := by
        unfold namesNonemptyList at hnames
        exact (Bool.and_eq_true_iff.mp hnames).2
      have hname : m.name ≠ "" := by
        unfold namesNonemptyOne at hn1
        have := (Bool.and_eq_true_iff.mp hn1).1
        simpa using this
      have hnested : namesNonemptyList m.nested_type = true := by
        unfold namesNonemptyOne at hn1
        exact (Bool.and_eq_true_iff.mp hn1).2
      have hch' : (chain ++ [m.name]) ≠ [] → dotJoin (chain ++ [m.name]) ≠ "" := by
        intro _
        cases hc : chain with
        | nil => simpa [dotJoin] using hname
        | cons c tail =>
          rw [← hc, dotJoin_append_one chain m.name (by rw [hc]; simp)]
          exact append_dot_ne_empty _ _
      have hhead : indexMessageOne pkg (dotJoin chain) m = specAssignOne pkg chain m := by
        unfold indexMessageOne specAssignOne
        rw [code_name_eq_spec pkg chain m.name hch,
          code_nested_parent_eq_spec chain m.name hch]
        by_cases hne : m.nested_type.isEmpty
        · simp [hne]
        · have hb : m.nested_type.isEmpty = false := by simpa using hne
          simp only [hb, Bool.not_false, if_true]
          exact congrArg (List.cons _)
            (ih pkg (chain ++ [m.name]) m.nested_type hsz1 hnested hch')
      rw [indexMessagesList_cons, specAssignList_cons, hhead]
      exact congrArg (fun l => specAssignOne pkg chain m ++ l)
        (ih pkg chain rest hsz2 hn2 hch)

theorem specAssignOne_cons (pkg : String) (chain : List String)
    (m : DescriptorProto) :
    specAssignOne pkg chain m =
      (specQualifiedName pkg chain m.name, m) ::
        specAssignList pkg (chain ++ [m.name]) m.nested_type := by
  unfold specAssignOne
  by_cases hne : m.nested_type.isEmpty
  · have hnil : m.nested_type = [] := by simpa [List.isEmpty_iff] using hne
    rw [hnil]
    rw [specAssignList_nil]
    simp
  · have hb : m.nested_type.isEmpty = false := by simpa using hne
    simp [hb]

/-- C7 amended: the indexer's fully-qualified names follow the chain form
`.pkg.Outer.Inner.Leaf` when the package is nonempty; with an empty
package, top-level names are `.Name` but nested names carry a leading
*double* dot (`..Outer.Inner`); and every message's index entry precedes
the entries of its nested messages (the nested block follows it
immediately, before the remaining siblings). -/
theorem c7_index_names_amended (pkg : String) (chain : List String)
    (msgs : List DescriptorProto)
    (hnames : namesNonemptyList msgs = true)
    (hch : chain ≠ [] → dotJoin chain ≠ "") :
    indexMessagesList pkg (dotJoin chain) msgs = specAssignList pkg chain msgs ∧
    (∀ m ∈ msgs, ∃ pre post,
      indexMessagesList pkg (dotJoin chain) msgs =
        pre ++ (specQualifiedName pkg chain m.name, m) ::
          (specAssignList pkg (chain ++ [m.name]) m.nested_type ++ post)) := by
  have hrefine := c7_refine_aux (sizeOf msgs) pkg chain msgs (Nat.le_refl _) hnames hch
  refine ⟨hrefine, ?_⟩
  intro m hm
  rw [hrefine]
  clear hrefine hnames
  induction msgs with
  | nil => cases hm
  | cons m₀ rest ih =>
    rcases List.mem_cons.mp hm with he | htail
    · subst he
      refine ⟨[], specAssignList pkg chain rest, ?_⟩
      rw [specAssignList_cons, specAssignOne_cons]
      simp
    · obtain ⟨pre, post, hdecomp⟩ := ih htail
      refine ⟨specAssignOne pkg chain m₀ ++ pre, post, ?_⟩
      rw [specAssignList_cons, hdecomp]
      simp

def c7Outer : DescriptorProto :=
  ⟨"Outer", [], [⟨"Inner", [], [], [], [], ⟨false⟩⟩], [], [], ⟨false⟩⟩

/-- Counterexample to C7 as stated: with an empty package, the nested
message `Inner` of `Outer` is indexed under `..Outer.Inner` — a leading
double dot, not a dot followed directly by the first name component. -/
theorem c7_index_names_counterexample :
    (indexMessagesList "" "" [c7Outer]).map Prod.fst = [".Outer", "..Outer.Inner"] ∧
    "..Outer.Inner".data.take 2 = ['.', '.'] := by
  constructor
  · simp [indexMessagesList_cons, indexMessagesList_nil, indexMessageOne, c7Outer]
  · decide

/-- Witness for the amended C7: a two-level nesting under package `pkg`. -/
theorem c7_index_names_amended_witness :
    indexMessagesList "pkg" "" [c7Outer] = specAssignList "pkg" [] [c7Outer] ∧
    (indexMessagesList "pkg" "" [c7Outer]).map Prod.fst =
      [".pkg.Outer", ".pkg.Outer.Inner"] := by
  have h := c7_index_names_amended "pkg" [] [c7Outer]
    (by simp [namesNonemptyList, namesNonemptyOne, c7Outer])
    (fun hc => absurd rfl hc)
  refine ⟨h.1, ?_⟩
  simp [indexMessagesList_cons, indexMessagesList_nil, indexMessageOne, c7Outer]

/-! ## Claim C8: output filename computation -/

theorem proto_pat_no_border :
    ∀ k, 1 ≤ k → k ≤ 5 → ".proto".data.drop k ≠ ".proto".data.take (6 - k) := by
  decide

theorem containsSub_cons_false (c : Char) (s pat : List Char)
    (h : containsSub (c :: s) pat = false) :
    containsSub s pat = false ∧ pat.isPrefixOf (c :: s) = false := by
  unfold containsSub at h
  by_cases hp : pat.isPrefixOf (c :: s)
  · rw [if_pos hp] at h
    exact absurd h (by simp)
  · have hb : pat.isPrefixOf (c :: s) = false := Bool.eq_false_iff.mpr hp
    rw [hb] at h
    simp only [Bool.false_eq_true, if_false] at h
    exact ⟨h, hb⟩

theorem proto_not_prefix_append (s : List Char) (hs : s ≠ [])
    (hno : containsSub s ".proto".data = false) :
    ".proto".data.isPrefixOf (s ++ ".proto".data) = false := by
  by_contra hcon
  have hpre : ".proto".data <+: s ++ ".proto".data := by
    rw [← List.isPrefixOf_iff_prefix]
    simpa using hcon
  have hn1 : 1 ≤ s.length := List.length_pos.mpr hs
  by_cases hn : 6 ≤ s.length
  · have h1 : ".proto".data <+: s := by
      apply List.prefix_of_prefix_length_le hpre (List.prefix_append s ".proto".data)
      simpa using hn
    have h2 : containsSub s ".proto".data = true := by
      unfold containsSub
      have hb : ".proto".data.isPrefixOf s = true := by
        rw [ List.isPrefixOf_iff_prefix]
        exact h1
      cases s with
      | nil => cases hs rfl
      | cons c rest => rw [hb]; simp
    rw [h2] at hno
    exact absurd hno (by simp)
  · obtain ⟨t, ht⟩ := hpre
    have hlen : (".proto".data).length = 6 := by decide
    have htake : (".proto".data ++ t).take 6 = ".proto".data := by
      rw [← hlen]
      exact List.take_left _ _
    have h2 : (s ++ ".proto".data).take 6 = ".proto".data := by
      rw [← ht]
      exact htake
    have h3 : (s ++ ".proto".data).take 6 = s ++ ".proto".data.take (6 - s.length) := by
      rw [ List.take_append_eq_append_take]
      congr 1
      exact List.take_of_length_le (by omega)
    have hEq : ".proto".data = s ++ ".proto".data.take (6 - s.length) :=
      h2.symm.trans h3
    have hdrop : ".proto".data.drop s.length = ".proto".data.take (6 - s.length) := by
      conv_lhs => rw [hEq]
      exact List.drop_left _ _
    exact proto_pat_no_border s.length hn1 (by omega) hdrop

theorem pyReplaceFuel_stem_append (stem rep : List Char)
    (hno : containsSub stem ".proto".data = false) :
    pyReplaceFuel (stem ++ ".proto".data).length (stem ++ ".proto".data)
        ".proto".data rep = stem ++ rep := by
  induction stem with
  | nil =>
    simp only [List.nil_append]
    show rep ++ ([] : List Char) = rep
    exact List.append_nil rep
  | cons c s' ih =>
    obtain ⟨hno', hnopre'⟩ := containsSub_cons_false c s' ".proto".data hno
    have hnopre : ".proto".data.isPrefixOf ((c :: s') ++ ".proto".data) = false :=
      proto_not_prefix_append (c :: s') (by simp) hno
    rw [List.cons_append, List.length_cons]
    simp only [pyReplaceFuel]
    rw [if_neg ?hc]
    case hc =>
      intro hand
      have h2 := hand.2
      rw [← List.cons_append] at h2
      rw [hnopre] at h2
      exact absurd h2 (by simp)
    rw [ih hno']
    rfl

theorem strReplace_proto_suffix (stem rep : String)
    (hno : containsSub stem.data ".proto".data = false) :
    strReplace (stem ++ ".proto") ".proto" rep = stem ++ rep := by
  apply String.ext
  show pyReplace (stem ++ ".proto").data ".proto".data rep.data = (stem ++ rep).data
  unfold pyReplace
  rw [strData_append, strData_append]
  exact pyReplaceFuel_stem_append stem.data rep.data hno

def c8File : FileDescriptorProto := ⟨"foo.proto", "t", [], [], [⟨"S", []⟩], []⟩

/-- Counterexample to C8 as stated: with no `output_suffix` parameter, the
input `foo.proto` yields `foo_pb2_mcp.py`, which is not of the claimed
default form `<name>_mcp.<ext>` (that would be `foo_mcp.<ext>`). -/
theorem c8_output_filename_counterexample :
    outputFilename [] c8File = "foo_pb2_mcp.py" ∧
    ∀ ext : String, "foo_pb2_mcp.py" ≠ "foo" ++ "_mcp." ++ ext := by
  constructor
  · decide
  · intro ext h
    have h2 := congrArg String.data h
    rw [strData_append, strData_append] at h2
    have hpre : ("foo".data ++ "_mcp.".data).isPrefixOf ("foo_pb2_mcp.py".data) = true := by
      rw [h2, List.isPrefixOf_iff_prefix]
      exact List.prefix_append _ _
    exact absurd hpre (by decide)

/-- C8 amended: the output filename is the input filename with every
occurrence of `.proto` replaced by the configured output suffix — for
inputs whose only `.proto` occurrence is the trailing suffix this is
exactly suffix replacement — and the default suffix (no `output_suffix`
parameter) is `_pb2_mcp.py`, yielding `<name>_pb2_mcp.py` for
`<name>.proto`. -/
theorem c8_output_filename_amended (params : Params)
    (gen : FileDescriptorProto → Except PyException String)
    (pf : FileDescriptorProto) (resp : CodeGeneratorResponse)
    (stem content : String)
    (hname : pf.name = stem ++ ".proto")
    (hno : containsSub stem.data ".proto".data = false)
    (hsvc : pf.service ≠ [])
    (hgen : gen pf = Except.ok content) :
    handleFile gen params pf resp =
      { resp with file := resp.file ++ [(stem ++ getOutputSuffix params, content)] } ∧
    (dictFind params "output_suffix" = none → getOutputSuffix params = "_pb2_mcp.py") := by
  constructor
  · unfold handleFile
    have hempty : pf.service.isEmpty = false := by
      simpa [List.isEmpty_iff] using hsvc
    simp only [hempty, Bool.false_eq_true, if_false]
    rw [hgen]
    unfold outputFilename
    rw [hname, strReplace_proto_suffix stem _ hno]
  · intro h
    unfold getOutputSuffix dictGetD
    rw [h]
    rfl

/-- Witness for the amended C8 at `foo.proto` with default parameters. -/
theorem c8_output_filename_amended_witness :
    handleFile (fun _ => Except.ok "content") [] c8File ⟨none, 1, []⟩ =
      ⟨none, 1, [("foo_pb2_mcp.py", "content")]⟩ := by
  have h := (c8_output_filename_amended [] (fun _ => Except.ok "content") c8File
    ⟨none, 1, []⟩ "foo" "content" rfl (by decide) (by decide) rfl).1
  rw [h]
  decide

/-! ## Claim C9: determinism of the pipeline -/

/-- C9: the generator is deterministic — the response is a pure function of
the request: it does not depend on the ambient stderr-log state (the only
side channel), and a second run on byte-identical request input, starting
from whatever log state the first run left behind, produces an identical
response. -/
theorem c9_pipeline_deterministic (request : CodeGeneratorRequest)
    (log₁ log₂ : List String) :
    (runPlugin request log₁).1 = (runPlugin request log₂).1 ∧
    (runPlugin request ((runPlugin request log₁).2)).1 = (runPlugin request log₁).1 :=
  ⟨rfl, rfl⟩

/-! ## Claim C10: per-file failures and the single error field -/

/-- Whether content generation for a file raises. -/
def isGenError (gen : FileDescriptorProto → Except PyException String)
    (pf : FileDescriptorProto) : Bool :=
  match gen pf with
  | .error _ => true
  | .ok _ => false

/-- The requested files with services whose generation fails, in processing
order. -/
def processedFailures (gen : FileDescriptorProto → Except PyException String)
    (requested : List String) (files : List FileDescriptorProto) :
    List FileDescriptorProto :=
  files.filter (fun pf =>
    requested.contains pf.name && !pf.service.isEmpty && isGenError gen pf)

/-- The generated entries of the requested files with services whose
generation succeeds, in processing order. -/
def successEntries (gen : FileDescriptorProto → Except PyException String)
    (params : Params) (requested : List String)
    (files : List FileDescriptorProto) : List (String × String) :=
  files.filterMap (fun pf =>
    if requested.contains pf.name && !pf.service.isEmpty then
      match gen pf with
      | .ok c => some (outputFilename params pf, c)
      | .error _ => none
    else none)

theorem processFiles_cons (gen : FileDescriptorProto → Except PyException String)
    (params : Params) (requested : List String) (pf : FileDescriptorProto)
    (rest : List FileDescriptorProto) (resp : CodeGeneratorResponse) :
    processFiles gen params requested (pf :: rest) resp =
      processFiles gen params requested rest
        (if requested.contains pf.name then handleFile gen params pf resp else resp) := rfl

theorem handleFile_empty_service
    (gen : FileDescriptorProto → Except PyException String) (params : Params)
    (pf : FileDescriptorProto) (resp : CodeGeneratorResponse)
    (h : pf.service.isEmpty = true) :
    handleFile gen params pf resp = resp := by
  unfold handleFile
  simp [h]

theorem handleFile_ok
    (gen : FileDescriptorProto → Except PyException String) (params : Params)
    (pf : FileDescriptorProto) (resp : CodeGeneratorResponse) (c : String)
    (h : pf.service.isEmpty = false) (hg : gen pf = Except.ok c) :
    handleFile gen params pf resp =
      { resp with file := resp.file ++ [(outputFilename params pf, c)] } := by
  unfold handleFile
  simp [h, hg]

theorem handleFile_error
    (gen : FileDescriptorProto → Except PyException String) (params : Params)
    (pf : FileDescriptorProto) (resp : CodeGeneratorResponse) (e : PyException)
    (h : pf.service.isEmpty = false) (hg : gen pf = Except.error e) :
    handleFile gen params pf resp =
      { resp with error := some (createDetailedErrorContext params pf.name e) } := by
  unfold handleFile
  simp [h, hg]

/-- C10: every per-file failure is caught — the generated entries of the
final response are exactly those of all succeeding requested files, in
order, regardless of failures — while the single response error field is
overwritten by each failure, so it ends as the context of the *last*
failing file (and is untouched when no file fails). -/
theorem c10_error_field_overwritten
    (gen : FileDescriptorProto → Except PyException String) (params : Params)
    (requested : List String) (files : List FileDescriptorProto)
    (resp : CodeGeneratorResponse) :
    (processFiles gen params requested files resp).file =
      resp.file ++ successEntries gen params requested files ∧
    (∀ lastf, (processedFailures gen requested files).getLast? = some lastf →
      ∃ e, gen lastf = Except.error e ∧
        (processFiles gen params requested files resp).error =
          some (createDetailedErrorContext params lastf.name e)) ∧
    (processedFailures gen requested files = [] →
      (processFiles gen params requested files resp).error = resp.error) := by
  induction files generalizing resp with
  | nil =>
    refine ⟨by simp [processFiles, successEntries], ?_, ?_⟩
    · intro lastf hl
      simp [processedFailures] at hl
    · intro _
      rfl
  | cons pf rest ih =>
    rw [processFiles_cons]
    by_cases hreq : requested.contains pf.name
    · have hmem : pf.name ∈ requested := by simpa using hreq
      by_cases hemp : pf.service.isEmpty
      · have hnil : pf.service = [] := by simpa [List.isEmpty_iff] using hemp
        have hstep : (if requested.contains pf.name then handleFile gen params pf resp
            else resp) = resp := by
          rw [if_pos hreq, handleFile_empty_service gen params pf resp hemp]
        rw [hstep]
        have hfail : processedFailures gen requested (pf :: rest) =
            processedFailures gen requested rest := by
          simp [processedFailures, List.filter_cons, hnil]
        have hsucc : successEntries gen params requested (pf :: rest) =
            successEntries gen params requested rest := by
          simp [successEntries, List.filterMap_cons, hnil]
        rw [hfail, hsucc]
        exact ih resp
      · have hemp2 : pf.service.isEmpty = false := Bool.eq_false_iff.mpr hemp
        have hne : ¬pf.service = [] := by
          simpa [List.isEmpty_iff] using hemp
        cases hg : gen pf with
        | ok c =>
          have hstep : (if requested.contains pf.name then handleFile gen params pf resp
              else resp) =
              { resp with file := resp.file ++ [(outputFilename params pf, c)] } := by
            rw [if_pos hreq, handleFile_ok gen params pf resp c hemp2 hg]
          rw [hstep]
          have hge : isGenError gen pf = false := by simp [isGenError, hg]
          have hfail : processedFailures gen requested (pf :: rest) =
              processedFailures gen requested rest := by
            simp [processedFailures, List.filter_cons, hge]
          have hsucc : successEntries gen params requested (pf :: rest) =
              (outputFilename params pf, c) ::
                successEntries gen params requested rest := by
            simp [successEntries, List.filterMap_cons, hmem, hne, hg]
          obtain ⟨ih1, ih2, ih3⟩ :=
            ih { resp with file := resp.file ++ [(outputFilename params pf, c)] }
          refine ⟨?_, ?_, ?_⟩
          · rw [ih1, hsucc]
            simp
          · intro lastf hl
            rw [hfail] at hl
            exact ih2 lastf hl
          · intro hempt
            rw [hfail] at hempt
            exact ih3 hempt
        | error e =>
          have hstep : (if requested.contains pf.name then handleFile gen params pf resp
              else resp) =
              { resp with
                error := some (createDetailedErrorContext params pf.name e) } := by
            rw [if_pos hreq, handleFile_error gen params pf resp e hemp2 hg]
          rw [hstep]
          have hge : isGenError gen pf = true := by simp [isGenError, hg]
          have hfail : processedFailures gen requested (pf :: rest) =
              pf :: processedFailures gen requested rest := by
            simp [processedFailures, List.filter_cons, hmem, hemp2, hge]
          have hsucc : successEntries gen params requested (pf :: rest) =
              successEntries gen params requested rest := by
            simp [successEntries, List.filterMap_cons, hg]
          obtain ⟨ih1, ih2, ih3⟩ :=
            ih { resp with error := some (createDetailedErrorContext params pf.name e) }
          refine ⟨?_, ?_, ?_⟩
          · rw [ih1, hsucc]
          · intro lastf hl
            rw [hfail] at hl
            cases hrl : processedFailures gen requested rest with
            | nil =>
              rw [hrl] at hl
              simp at hl
              subst hl
              exact ⟨e, hg, ih3 hrl⟩
            | cons q qs =>
              rw [hrl, List.getLast?_cons_cons] at hl
              exact ih2 lastf (by rw [hrl]; exact hl)
          · intro hempt
            rw [hfail] at hempt
            simp at hempt
    · have hnmem : pf.name ∉ requested := by
        intro hm
        exact hreq (by simpa using hm)
      rw [if_neg hreq]
      have hfail : processedFailures gen requested (pf :: rest) =
          processedFailures gen requested rest := by
        simp [processedFailures, List.filter_cons, hnmem]
      have hsucc : successEntries gen params requested (pf :: rest) =
          successEntries gen params requested rest := by
        simp [successEntries, List.filterMap_cons, hnmem]
      rw [hfail, hsucc]
      exact ih resp

def c10FileA : FileDescriptorProto := ⟨"a.proto", "t", [], [], [⟨"A", []⟩], []⟩

def c10FileB : FileDescriptorProto := ⟨"b.proto", "t", [], [], [⟨"B", []⟩], []⟩

def c10FileC : FileDescriptorProto := ⟨"c.proto", "t", [], [], [⟨"C", []⟩], []⟩

/-- A generator that fails on the first and third file with different
exceptions and succeeds on the second. -/
def c10Gen : FileDescriptorProto → Except PyException String := fun pf =>
  if pf.name = "a.proto" then Except.error ⟨"ValueError", "bad a", "tbA"⟩
  else if pf.name = "c.proto" then Except.error ⟨"KeyError", "bad c", "tbC"⟩
  else Except.ok "okB"

/-- Witness for C10: two failing files and one succeeding file — the
success is still emitted and only the last failure's context survives. -/
theorem c10_error_field_overwritten_witness :
    (processFiles c10Gen [] ["a.proto", "b.proto", "c.proto"]
      [c10FileA, c10FileB, c10FileC] ⟨none, 1, []⟩).file =
      [("b_pb2_mcp.py", "okB")] ∧
    (processFiles c10Gen [] ["a.proto", "b.proto", "c.proto"]
      [c10FileA, c10FileB, c10FileC] ⟨none, 1, []⟩).error =
      some (createDetailedErrorContext [] "c.proto" ⟨"KeyError", "bad c", "tbC"⟩) := by
  have h := c10_error_field_overwritten c10Gen [] ["a.proto", "b.proto", "c.proto"]
    [c10FileA, c10FileB, c10FileC] ⟨none, 1, []⟩
  constructor
  · rw [h.1]
    decide
  · obtain ⟨e, hge, herr⟩ := h.2.1 c10FileC rfl
    have he : (Except.error (⟨"KeyError", "bad c", "tbC"⟩ : PyException) :
        Except PyException String) = Except.error e := hge
    injection he with he2
    rw [herr, ← he2]
    rfl

end PyMcp
